import Mathlib

/-!
Shallow embedding of the buzzard message-bus dispatch engine (src/bus.rs,
src/message.rs, src/uow.rs, src/broker.rs).

The engine's effectful collaborators (unit-of-work factory, command handler,
commit/rollback, policy context factory, policy, broker publish/ack/nack) are
modelled by an environment recording the outcome each call would produce, and
each engine operation is a pure function from that environment to the ordered
list of boundary effects it performs together with its returned `Result`.
`Except e a` stands for Rust's `Result<a, e>`; the `?` operator is modelled by
the explicit early-return match structure of the source.
-/

namespace Buzzard

variable {C E P I X : Type}

/-- Message envelope `Message<C, E, P>` from src/message.rs: a three-way
tagged union over command, event and projection payloads. -/
inductive Msg (C E P : Type) where
  | Command : C → Msg C E P
  | Event : E → Msg C E P
  | Projection : P → Msg C E P
  deriving DecidableEq

/-- Side-effect union `SideEffect<C, P>` from src/message.rs: the output
alphabet of a policy, either a follow-up command or a projection. -/
inductive SideEffect (C P : Type) where
  | Command : C → SideEffect C P
  | Projection : P → SideEffect C P
  deriving DecidableEq

/-- Observable boundary effects of one `dispatch` or `handle_event` call, in
the order the source issues them: a commit attempt, a rollback attempt, a
`publish_batch` call with its payload, or a policy-context `close` call. -/
inductive BusEffect (C E P : Type) where
  | commitCall : BusEffect C E P
  | rollbackCall : BusEffect C E P
  | publishBatch : List (Msg C E P) → BusEffect C E P
  | closeCall : BusEffect C E P
  deriving DecidableEq

/-- The payloads of the `publish_batch` calls occurring in an effect trace,
in order. -/
def publishes : List (BusEffect C E P) → List (List (Msg C E P))
  | [] => []
  | BusEffect.publishBatch msgs :: rest => msgs :: publishes rest
  | _ :: rest => publishes rest

/-- Outcomes of the effectful calls one `MessageBus::dispatch` invocation can
make (src/bus.rs lines 98-120): unit-of-work creation, the command handler,
commit (yielding captured events in capture order), rollback, and the broker
`publish_batch` call. -/
structure DispatchEnv (C E P I X : Type) where
  createUow : Except X Unit
  handle : Except X (Option I)
  commit : Except X (List E)
  rollback : Except X Unit
  publishBatch : List (Msg C E P) → Except X Unit

/-- `MessageBus::dispatch` (src/bus.rs lines 98-120): create a unit of work,
run the handler; on success commit, wrap each returned event as an `Event`
envelope and publish the batch; on handler failure roll back and return the
handler error. Each `?` in the source is an early return here. Returns the
ordered effect trace and the call's result. -/
def dispatch (env : DispatchEnv C E P I X) :
    List (BusEffect C E P) × Except X (Option I) :=
  match env.createUow with
  | Except.error e => ([], Except.error e)
  | Except.ok _ =>
    match env.handle with
    | Except.ok res =>
      match env.commit with
      | Except.error e => ([BusEffect.commitCall], Except.error e)
      | Except.ok evs =>
        let msgs := evs.map Msg.Event
        match env.publishBatch msgs with
        | Except.error e =>
            ([BusEffect.commitCall, BusEffect.publishBatch msgs], Except.error e)
        | Except.ok _ =>
            ([BusEffect.commitCall, BusEffect.publishBatch msgs], Except.ok res)
    | Except.error e =>
      match env.rollback with
      | Except.error re => ([BusEffect.rollbackCall], Except.error re)
      | Except.ok _ => ([BusEffect.rollbackCall], Except.error e)

/-- The side-effect-to-envelope mapping: the closure at src/bus.rs lines
201-204, `SideEffect::Command(cmd) => Message::Command(cmd)` and
`SideEffect::Projection(proj) => Message::Projection(proj)`. -/
def sideEffectToMessage : SideEffect C P → Msg C E P
  | SideEffect.Command c => Msg.Command c
  | SideEffect.Projection p => Msg.Projection p

/-- Outcomes of the effectful calls one `MessageBus::handle_event` invocation
can make (src/bus.rs lines 192-216): policy-context creation, policy
application (yielding side effects in the policy's output order), the broker
`publish_batch` call, and the context `close` call. -/
structure EventEnv (C E P X : Type) where
  createCtx : Except X Unit
  apply : Except X (List (SideEffect C P))
  publishBatch : List (Msg C E P) → Except X Unit
  close : Except X Unit

/-- `MessageBus::handle_event` (src/bus.rs lines 192-216): create a policy
context, apply the policy; on success map every side effect to its envelope
and publish the batch — the `?` on `publish_batch` returns early, before the
`close` call; otherwise close the context, a close failure propagating via
`?` in place of the computed result. Returns the ordered effect trace and the
call's result. -/
def handleEvent (env : EventEnv C E P X) :
    List (BusEffect C E P) × Except X Unit :=
  match env.createCtx with
  | Except.error e => ([], Except.error e)
  | Except.ok _ =>
    match env.apply with
    | Except.ok effs =>
      let messages := effs.map sideEffectToMessage
      match env.publishBatch messages with
      | Except.error e => ([BusEffect.publishBatch messages], Except.error e)
      | Except.ok _ =>
        match env.close with
        | Except.error ce =>
            ([BusEffect.publishBatch messages, BusEffect.closeCall],
             Except.error ce)
        | Except.ok _ =>
            ([BusEffect.publishBatch messages, BusEffect.closeCall],
             Except.ok ())
    | Except.error e =>
      match env.close with
      | Except.error ce => ([BusEffect.closeCall], Except.error ce)
      | Except.ok _ => ([BusEffect.closeCall], Except.error e)

/-- One delivery pulled from the broker stream in `MessageBus::start`
(src/bus.rs lines 137-157): its delivery id, the outcome of
`handle_message` for its envelope, and the outcomes the broker would give
the `ack` and `nack` calls for its id. -/
structure Delivery (I X : Type) where
  id : I
  routed : Except X Unit
  ackResult : Except X Unit
  nackResult : Except X Unit

/-- Broker acknowledgment calls issued by the receive loop, in order. -/
inductive LoopEffect (I : Type) where
  | ack : I → LoopEffect I
  | nack : I → LoopEffect I
  deriving DecidableEq

/-- `MessageBus::start` (src/bus.rs lines 137-157) over a finite delivery
sequence: for each `(id, msg)` pair, route the message; on success `ack(id)`,
on failure `nack(id)`; an ack or nack failure propagates via `?` and ends the
loop; when the stream ends, return `Ok(())`. Returns the ordered trace of
ack/nack calls and the loop's result. -/
def startLoop : List (Delivery I X) → List (LoopEffect I) × Except X Unit
  | [] => ([], Except.ok ())
  | d :: rest =>
    match d.routed with
    | Except.ok _ =>
      match d.ackResult with
      | Except.error e => ([LoopEffect.ack d.id], Except.error e)
      | Except.ok _ =>
        let r := startLoop rest
        (LoopEffect.ack d.id :: r.1, r.2)
    | Except.error _ =>
      match d.nackResult with
      | Except.error e => ([LoopEffect.nack d.id], Except.error e)
      | Except.ok _ =>
        let r := startLoop rest
        (LoopEffect.nack d.id :: r.1, r.2)

/-- The acknowledgment call the loop issues for a delivery: `ack` if the
routed operation succeeded, `nack` otherwise. -/
def stepEffect (d : Delivery I X) : LoopEffect I :=
  match d.routed with
  | Except.ok _ => LoopEffect.ack d.id
  | Except.error _ => LoopEffect.nack d.id

/-- The outcome of the acknowledgment call the loop issues for a delivery. -/
def stepCallResult (d : Delivery I X) : Except X Unit :=
  match d.routed with
  | Except.ok _ => d.ackResult
  | Except.error _ => d.nackResult

theorem startLoop_cons_ok (d : Delivery I X) (rest : List (Delivery I X))
    (h : stepCallResult d = Except.ok ()) :
    startLoop (d :: rest) =
      (stepEffect d :: (startLoop rest).1, (startLoop rest).2) := by
  cases hr : d.routed with
  | ok v =>
    have ha : d.ackResult = Except.ok () := by
      simpa [stepCallResult, hr] using h
    simp [startLoop, stepEffect, hr, ha]
  | error e =>
    have hn : d.nackResult = Except.ok () := by
      simpa [stepCallResult, hr] using h
    simp [startLoop, stepEffect, hr, hn]

theorem startLoop_cons_error (d : Delivery I X) (rest : List (Delivery I X))
    (e : X) (h : stepCallResult d = Except.error e) :
    startLoop (d :: rest) = ([stepEffect d], Except.error e) := by
  cases hr : d.routed with
  | ok v =>
    have ha : d.ackResult = Except.error e := by
      simpa [stepCallResult, hr] using h
    simp [startLoop, stepEffect, hr, ha]
  | error e0 =>
    have hn : d.nackResult = Except.error e := by
      simpa [stepCallResult, hr] using h
    simp [startLoop, stepEffect, hr, hn]

theorem startLoop_append_ok (ds1 ds2 : List (Delivery I X))
    (h : ∀ d ∈ ds1, stepCallResult d = Except.ok ()) :
    startLoop (ds1 ++ ds2) =
      (ds1.map stepEffect ++ (startLoop ds2).1, (startLoop ds2).2) := by
  induction ds1 with
  | nil => simp
  | cons d rest ih =>
    have hd : stepCallResult d = Except.ok () := h d (by simp)
    have hrest : ∀ x ∈ rest, stepCallResult x = Except.ok () :=
      fun x hx => h x (by simp [hx])
    rw [List.cons_append, startLoop_cons_ok d (rest ++ ds2) hd, ih hrest]
    simp

/-- Claim C1: in a dispatch call where the handler succeeds and commit
succeeds, the effect trace is exactly a commit followed by one single
`publish_batch` whose payload wraps each committed event as an `Event`
envelope in capture order — so every event is handed to the broker exactly
once, only after commit returned successfully — and on any handler-failure
(rollback) path no publish call occurs at all. -/
theorem dispatch_publish_after_commit (env : DispatchEnv C E P I X)
    (res : Option I) (evs : List E)
    (h1 : env.createUow = Except.ok ()) (h2 : env.handle = Except.ok res)
    (h3 : env.commit = Except.ok evs) :
    (dispatch env).1 =
      [BusEffect.commitCall, BusEffect.publishBatch (evs.map Msg.Event)] ∧
    (∀ (env2 : DispatchEnv C E P I X) (e : X), env2.createUow = Except.ok () →
      env2.handle = Except.error e → publishes (dispatch env2).1 = []) := by
  constructor
  · cases hp : env.publishBatch (evs.map Msg.Event) <;>
      simp [dispatch, h1, h2, h3, hp]
  · intro env2 e hc hh
    cases hr : env2.rollback <;> simp [dispatch, hc, hh, hr, publishes]

def envC1 : DispatchEnv Nat Nat Nat Nat Nat where
  createUow := Except.ok ()
  handle := Except.ok (some 5)
  commit := Except.ok [1, 2]
  rollback := Except.ok ()
  publishBatch := fun _ => Except.ok ()

theorem dispatch_publish_after_commit_witness :
    envC1.createUow = Except.ok () ∧ envC1.handle = Except.ok (some 5) ∧
    envC1.commit = Except.ok [1, 2] ∧
    (dispatch envC1).1 =
      [BusEffect.commitCall,
       BusEffect.publishBatch [Msg.Event 1, Msg.Event 2]] :=
  ⟨rfl, rfl, rfl,
    (dispatch_publish_after_commit envC1 (some 5) [1, 2] rfl rfl rfl).1⟩

/-- Claim C4: in a dispatch call where the handler returns an error, the
effect trace is exactly one rollback call — so rollback is invoked exactly
once and no publish call to the broker occurs — and, provided rollback
itself succeeds, dispatch returns the handler's original error unchanged. -/
theorem dispatch_rollback_on_handler_error (env : DispatchEnv C E P I X)
    (e : X) (h1 : env.createUow = Except.ok ())
    (h2 : env.handle = Except.error e) :
    (dispatch env).1 = [BusEffect.rollbackCall] ∧
    (env.rollback = Except.ok () → (dispatch env).2 = Except.error e) := by
  constructor
  · cases hr : env.rollback <;> simp [dispatch, h1, h2, hr]
  · intro hr
    simp [dispatch, h1, h2, hr]

def envC4 : DispatchEnv Nat Nat Nat Nat Nat where
  createUow := Except.ok ()
  handle := Except.error 7
  commit := Except.ok []
  rollback := Except.ok ()
  publishBatch := fun _ => Except.ok ()

theorem dispatch_rollback_on_handler_error_witness :
    envC4.createUow = Except.ok () ∧ envC4.handle = Except.error 7 ∧
    envC4.rollback = Except.ok () ∧
    (dispatch envC4).1 = [BusEffect.rollbackCall] ∧
    (dispatch envC4).2 = Except.error 7 :=
  ⟨rfl, rfl, rfl,
    (dispatch_rollback_on_handler_error envC4 7 rfl rfl).1,
    (dispatch_rollback_on_handler_error envC4 7 rfl rfl).2 rfl⟩

/-- Claim C9: in a dispatch call where the handler succeeds but commit fails,
the effect trace is exactly one commit attempt — so rollback is never invoked
and no publish call to the broker occurs — and dispatch returns the commit
error, discarding the handler's result. -/
theorem dispatch_commit_failure (env : DispatchEnv C E P I X)
    (res : Option I) (e : X) (h1 : env.createUow = Except.ok ())
    (h2 : env.handle = Except.ok res) (h3 : env.commit = Except.error e) :
    (dispatch env).1 = [BusEffect.commitCall] ∧
    (dispatch env).2 = Except.error e := by
  simp [dispatch, h1, h2, h3]

def envC9 : DispatchEnv Nat Nat Nat Nat Nat where
  createUow := Except.ok ()
  handle := Except.ok (some 4)
  commit := Except.error 11
  rollback := Except.ok ()
  publishBatch := fun _ => Except.ok ()

theorem dispatch_commit_failure_witness :
    envC9.createUow = Except.ok () ∧ envC9.handle = Except.ok (some 4) ∧
    envC9.commit = Except.error 11 ∧
    (dispatch envC9).1 = [BusEffect.commitCall] ∧
    (dispatch envC9).2 = Except.error 11 :=
  ⟨rfl, rfl, rfl,
    (dispatch_commit_failure envC9 (some 4) 11 rfl rfl rfl).1,
    (dispatch_commit_failure envC9 (some 4) 11 rfl rfl rfl).2⟩

def envC2 : EventEnv Nat Nat Nat Nat where
  createCtx := Except.ok ()
  apply := Except.ok [SideEffect.Command 7]
  publishBatch := fun _ => Except.error 3
  close := Except.ok ()

/-- Claim C2: the spec requires the policy context's `close` to be invoked
exactly once on every exit path of `handle_event`, including when the publish
of the side-effect batch fails. The code violates this: with the
policy-context factory and policy evaluation succeeding but `publish_batch`
failing, the `?` on `publish_batch` returns early and the effect trace
contains no `close` call at all — the publish error is returned with the
context never closed. -/
theorem handle_event_skips_close_on_publish_error :
    (handleEvent envC2).1 = [BusEffect.publishBatch [Msg.Command 7]] ∧
    BusEffect.closeCall ∉ (handleEvent envC2).1 ∧
    (handleEvent envC2).2 = Except.error 3 := by
  refine ⟨rfl, ?_, rfl⟩
  show BusEffect.closeCall ∉ [BusEffect.publishBatch [Msg.Command 7]]
  simp

def envC3 : EventEnv Nat Nat Nat Nat where
  createCtx := Except.ok ()
  apply := Except.error 1
  publishBatch := fun _ => Except.ok ()
  close := Except.error 2

/-- Claim C3 counterexample: with policy evaluation failing with error 1 and
the context `close` failing with error 2, `handle_event` returns the close
error 2, not the evaluation error 1 — refuting the claim that the
policy-evaluation error is what is returned when close also fails. -/
theorem handle_event_eval_error_dropped_cex :
    (handleEvent envC3).2 = Except.error 2 ∧
    (handleEvent envC3).2 ≠ Except.error 1 := by
  refine ⟨rfl, ?_⟩
  show (Except.error 2 : Except Nat Unit) ≠ Except.error 1
  simp

/-- Claim C3 amended: when policy evaluation fails, a failing context
`close` replaces the evaluation error — `handle_event` returns the close
error and the evaluation error is dropped; only when `close` succeeds is the
evaluation error returned. (A close failure thus overrides the result on
every path that reaches it, not only after a successful evaluation.) -/
theorem handle_event_close_error_precedence (env : EventEnv C E P X)
    (e : X) (h1 : env.createCtx = Except.ok ())
    (h2 : env.apply = Except.error e) :
    (∀ ce : X, env.close = Except.error ce →
      (handleEvent env).2 = Except.error ce) ∧
    (env.close = Except.ok () → (handleEvent env).2 = Except.error e) := by
  constructor
  · intro ce hc
    simp [handleEvent, h1, h2, hc]
  · intro hc
    simp [handleEvent, h1, h2, hc]

theorem handle_event_close_error_precedence_witness :
    envC3.createCtx = Except.ok () ∧ envC3.apply = Except.error 1 ∧
    envC3.close = Except.error 2 ∧
    (handleEvent envC3).2 = Except.error 2 :=
  ⟨rfl, rfl, rfl,
    (handle_event_close_error_precedence envC3 1 rfl rfl).1 2 rfl⟩

/-- Claim C5: when policy evaluation succeeds with side-effect list `effs`,
the whole batch is published in exactly one `publish_batch` call whose
payload is `effs.map sideEffectToMessage` — a total, order- and
length-preserving mapping sending each `Command` side effect to a `Command`
envelope and each `Projection` side effect to a `Projection` envelope. -/
theorem handle_event_side_effect_mapping (env : EventEnv C E P X)
    (effs : List (SideEffect C P)) (h1 : env.createCtx = Except.ok ())
    (h2 : env.apply = Except.ok effs) :
    publishes (handleEvent env).1 = [effs.map sideEffectToMessage] ∧
    (effs.map (@sideEffectToMessage C E P)).length = effs.length ∧
    (∀ c : C, @sideEffectToMessage C E P (SideEffect.Command c) =
      Msg.Command c) ∧
    (∀ p : P, @sideEffectToMessage C E P (SideEffect.Projection p) =
      Msg.Projection p) := by
  refine ⟨?_, by simp, fun c => rfl, fun p => rfl⟩
  cases hp : env.publishBatch (effs.map sideEffectToMessage) with
  | error e => simp [handleEvent, h1, h2, hp, publishes]
  | ok v =>
    cases hc : env.close <;> simp [handleEvent, h1, h2, hp, hc, publishes]

def envC5 : EventEnv Nat Nat Nat Nat where
  createCtx := Except.ok ()
  apply := Except.ok [SideEffect.Command 8, SideEffect.Projection 9]
  publishBatch := fun _ => Except.ok ()
  close := Except.ok ()

theorem handle_event_side_effect_mapping_witness :
    envC5.createCtx = Except.ok () ∧
    envC5.apply = Except.ok [SideEffect.Command 8, SideEffect.Projection 9] ∧
    publishes (handleEvent envC5).1 =
      [[Msg.Command 8, Msg.Projection 9]] :=
  ⟨rfl, rfl,
    (handle_event_side_effect_mapping envC5
      [SideEffect.Command 8, SideEffect.Projection 9] rfl rfl).1⟩

/-- Claim C10: when policy evaluation succeeds with an empty side-effect
list, exactly one `publish_batch` call is still made, with an empty batch,
and `handle_event` succeeds precisely when that publish call and the
subsequent `close` both succeed. -/
theorem handle_event_empty_batch (env : EventEnv C E P X)
    (h1 : env.createCtx = Except.ok ())
    (h2 : env.apply = Except.ok ([] : List (SideEffect C P))) :
    publishes (handleEvent env).1 = [[]] ∧
    ((handleEvent env).2 = Except.ok () ↔
      (env.publishBatch [] = Except.ok () ∧ env.close = Except.ok ())) := by
  cases hp : env.publishBatch ([] : List (Msg C E P)) with
  | error e =>
    refine ⟨?_, ?_⟩ <;> simp [handleEvent, h1, h2, hp, publishes]
  | ok v =>
    cases hc : env.close with
    | error ce =>
      refine ⟨?_, ?_⟩ <;> simp [handleEvent, h1, h2, hp, hc, publishes]
    | ok w =>
      refine ⟨?_, ?_⟩ <;> simp [handleEvent, h1, h2, hp, hc, publishes]

def envC10 : EventEnv Nat Nat Nat Nat where
  createCtx := Except.ok ()
  apply := Except.ok []
  publishBatch := fun _ => Except.ok ()
  close := Except.ok ()

theorem handle_event_empty_batch_witness :
    envC10.createCtx = Except.ok () ∧ envC10.apply = Except.ok [] ∧
    publishes (handleEvent envC10).1 = [[]] ∧
    (handleEvent envC10).2 = Except.ok () :=
  ⟨rfl, rfl, (handle_event_empty_batch envC10 rfl rfl).1,
    (handle_event_empty_batch envC10 rfl rfl).2.mpr ⟨rfl, rfl⟩⟩

/-- Claim C6: in a delivery sequence where every delivery before position k
completes its ack/nack call, delivery k's routed operation fails and its
nack call succeeds, the loop issues a negative-acknowledgment for delivery
k's id and then continues processing the remaining deliveries — a single
routed-operation failure does not terminate the loop. -/
theorem start_nack_then_continues (ds1 : List (Delivery I X))
    (d : Delivery I X) (rest : List (Delivery I X)) (e : X)
    (h1 : ∀ x ∈ ds1, stepCallResult x = Except.ok ())
    (h2 : d.routed = Except.error e) (h3 : d.nackResult = Except.ok ()) :
    (startLoop (ds1 ++ d :: rest)).1 =
      ds1.map stepEffect ++ LoopEffect.nack d.id :: (startLoop rest).1 ∧
    (startLoop (ds1 ++ d :: rest)).2 = (startLoop rest).2 := by
  have hd : stepCallResult d = Except.ok () := by
    simp [stepCallResult, h2, h3]
  have hse : stepEffect d = LoopEffect.nack d.id := by
    simp [stepEffect, h2]
  rw [startLoop_append_ok ds1 (d :: rest) h1, startLoop_cons_ok d rest hd,
      hse]
  simp

def dA : Delivery Nat Nat where
  id := 0
  routed := Except.ok ()
  ackResult := Except.ok ()
  nackResult := Except.ok ()

def dB : Delivery Nat Nat where
  id := 1
  routed := Except.error 9
  ackResult := Except.ok ()
  nackResult := Except.ok ()

def dC : Delivery Nat Nat where
  id := 2
  routed := Except.ok ()
  ackResult := Except.ok ()
  nackResult := Except.ok ()

theorem start_nack_then_continues_witness :
    dB.routed = Except.error 9 ∧ dB.nackResult = Except.ok () ∧
    (startLoop [dA, dB, dC]).1 =
      [LoopEffect.ack 0, LoopEffect.nack 1, LoopEffect.ack 2] ∧
    (startLoop [dA, dB, dC]).2 = Except.ok () := by
  have h1 : ∀ x ∈ [dA], stepCallResult x = Except.ok () := by
    intro x hx
    simp at hx
    subst hx
    rfl
  have key := start_nack_then_continues [dA] dB [dC] 9 h1 rfl rfl
  exact ⟨rfl, rfl, key.1, key.2⟩

/-- Claim C7: in a delivery sequence where every routed operation and every
acknowledgment succeeds, the loop issues exactly one acknowledgment per
delivery id, in order — N acks for N deliveries — issues zero
negative-acknowledgments, returns success, and continues consuming after
each delivery. -/
theorem start_all_success_acks (ds : List (Delivery I X))
    (h : ∀ d ∈ ds, d.routed = Except.ok () ∧ d.ackResult = Except.ok ()) :
    (startLoop ds).1 = ds.map (fun d => LoopEffect.ack d.id) ∧
    (startLoop ds).1.length = ds.length ∧
    (∀ i : I, LoopEffect.nack i ∉ (startLoop ds).1) ∧
    (startLoop ds).2 = Except.ok () := by
  have key : (startLoop ds).1 = ds.map (fun d => LoopEffect.ack d.id) ∧
      (startLoop ds).2 = Except.ok () := by
    induction ds with
    | nil => simp [startLoop]
    | cons d rest ih =>
      have hd := h d (by simp)
      have hcall : stepCallResult d = Except.ok () := by
        simp [stepCallResult, hd.1, hd.2]
      have hse : stepEffect d = LoopEffect.ack d.id := by
        simp [stepEffect, hd.1]
      have ihh := ih (fun x hx => h x (by simp [hx]))
      rw [startLoop_cons_ok d rest hcall, hse]
      simp [ihh.1, ihh.2]
  refine ⟨key.1, ?_, ?_, key.2⟩
  · rw [key.1]
    simp
  · intro i hi
    rw [key.1] at hi
    simp [List.mem_map] at hi

theorem start_all_success_acks_witness :
    (∀ d ∈ [dA, dC],
      d.routed = Except.ok () ∧ d.ackResult = Except.ok ()) ∧
    (startLoop [dA, dC]).1 = [LoopEffect.ack 0, LoopEffect.ack 2] ∧
    (startLoop [dA, dC]).2 = Except.ok () := by
  have h : ∀ d ∈ [dA, dC],
      d.routed = Except.ok () ∧ d.ackResult = Except.ok () := by
    intro d hd
    rcases List.mem_cons.mp hd with h | h
    · subst h
      exact ⟨rfl, rfl⟩
    · simp at h
      subst h
      exact ⟨rfl, rfl⟩
  have key := start_all_success_acks [dA, dC] h
  exact ⟨h, key.1, key.2.2.2⟩

/-- Claim C8: the receive loop returns success exactly when the delivery
sequence ends with every ack/nack call having succeeded; and whenever it
returns an error, the sequence splits at a first delivery whose ack/nack
call itself failed — the loop's error is that ack/nack error, and the trace
stops at that delivery, so no further deliveries are processed. -/
theorem start_termination (ds : List (Delivery I X)) :
    ((startLoop ds).2 = Except.ok () ↔
      ∀ d ∈ ds, stepCallResult d = Except.ok ()) ∧
    (∀ e : X, (startLoop ds).2 = Except.error e →
      ∃ ds1 d rest, ds = ds1 ++ d :: rest ∧
        (∀ x ∈ ds1, stepCallResult x = Except.ok ()) ∧
        stepCallResult d = Except.error e ∧
        (startLoop ds).1 = ds1.map stepEffect ++ [stepEffect d]) := by
  induction ds with
  | nil =>
    constructor
    · simp [startLoop]
    · intro e he
      simp [startLoop] at he
  | cons d rest ih =>
    cases hd : stepCallResult d with
    | ok v =>
      have hv : stepCallResult d = Except.ok () := by
        cases v
        exact hd
      rw [startLoop_cons_ok d rest hv]
      refine ⟨?_, ?_⟩
      · constructor
        · intro h2 x hx
          rcases List.mem_cons.mp hx with hx | hx
          · subst hx
            exact hv
          · exact ih.1.mp h2 x hx
        · intro h2
          exact ih.1.mpr fun x hx => h2 x (List.mem_cons_of_mem d hx)
      · intro e he
        obtain ⟨ds1, dd, rest2, hsplit, hall, hcall, htr⟩ := ih.2 e he
        refine ⟨d :: ds1, dd, rest2, by rw [List.cons_append, hsplit], ?_,
          hcall, ?_⟩
        · intro x hx
          rcases List.mem_cons.mp hx with hx | hx
          · subst hx
            exact hv
          · exact hall x hx
        · show stepEffect d :: (startLoop rest).1 =
            (d :: ds1).map stepEffect ++ [stepEffect dd]
          rw [htr]
          simp
    | error e0 =>
      rw [startLoop_cons_error d rest e0 hd]
      refine ⟨?_, ?_⟩
      · constructor
        · intro h2
          simp at h2
        · intro h2
          have hcontra := h2 d (by simp)
          rw [hd] at hcontra
          simp at hcontra
      · intro e he
        have h3 : (Except.error e0 : Except X Unit) = Except.error e := he
        injection h3 with h4
        subst h4
        exact ⟨[], d, rest, rfl, by simp, hd, by simp⟩

theorem start_termination_witness :
    (∀ d ∈ [dA, dC], stepCallResult d = Except.ok ()) ∧
    (startLoop [dA, dC]).2 = Except.ok () := by
  have h : ∀ d ∈ [dA, dC], stepCallResult d = Except.ok () := by
    intro d hd
    rcases List.mem_cons.mp hd with h | h
    · subst h
      rfl
    · simp at h
      subst h
      rfl
  exact ⟨h, (start_termination [dA, dC]).1.mpr h⟩

end Buzzard
